import Mathlib

/-!
# Verification of the SAP business-document-processing HTTP client core

Shallow embedding of the core of `sap_business_document_processing`
(`common/http_client_base.py`, `common/helpers.py`,
`document_information_extraction_client/dox_api_client.py`) and proofs about
its polling state machine, status validation, URL joining, batch dispatch and
result iteration.

HTTP endpoints are modelled denotationally as functions `Nat → Response α`
giving the response to the i-th GET request of a poll; per-item operations
that may raise are modelled as functions into `Except`.
-/

namespace BDP

/-- An HTTP response as the client observes it: a status code and a body.
The body type `α` is abstract; accessors such as `response.json()['status']`
or `response.text` are passed as functions out of `α`. -/
structure Response (α : Type) where
  status_code : Nat
  body : α
  deriving Repr, DecidableEq

/-- The kind of typed error chosen by `CommonClient.raise_for_status_with_logging`
from a status code: `401` → unauthorized, other 4xx → client error,
5xx → server error, anything else → no error. -/
inductive ErrKind where
  | unauthorized
  | client
  | server
  deriving Repr, DecidableEq

/-- The status-code-to-error-kind decision of
`CommonClient.raise_for_status_with_logging` (`common/http_client_base.py`):
`if response.status_code == 401 ... elif 400 <= status_code < 500 ...
elif 500 <= status_code < 600 ... else` no exception. -/
def errorKindOf (status_code : Nat) : Option ErrKind :=
  if status_code = 401 then some .unauthorized
  else if 400 ≤ status_code ∧ status_code < 500 then some .client
  else if 500 ≤ status_code ∧ status_code < 600 then some .server
  else none

/-- The typed exceptions raised by `raise_for_status_with_logging`
(`BDPUnauthorizedException`, `BDPClientException`, `BDPServerException` in
`common/exceptions.py`); each carries its message, the original response and
the status code stored on the exception. -/
inductive BDPError (α : Type) where
  | unauthorized (message : String) (response : Response α) (status_code : Nat)
  | client (message : String) (response : Response α) (status_code : Nat)
  | server (message : String) (response : Response α) (status_code : Nat)
  deriving Repr, DecidableEq

/-- Model of `CommonClient.raise_for_status_with_logging`.  `jsonStr b` models
`str(response.json())` (`none` when `response.json()` raises
`json.JSONDecodeError`), `text b` models `response.text`.  Returns the raised
exception, or `none` when the method returns without raising. -/
def raise_for_status_with_logging (jsonStr : α → Option String) (text : α → String)
    (r : Response α) : Option (BDPError α) :=
  match errorKindOf r.status_code with
  | some .unauthorized =>
      some (.unauthorized "Missing authorization for this service" r 401)
  | some .client =>
      some (.client ((jsonStr r.body).getD (text r.body)) r r.status_code)
  | some .server => some (.server (text r.body) r r.status_code)
  | none => none

/-- Observable effect of one `CommonClient._request` call: how many HTTP
requests were issued to the endpoint, and either the returned response or the
raised `BDPError`. -/
structure RequestTrace (α : Type) where
  requests : Nat
  result : Except (BDPError α) (Response α)
  deriving Repr

/-- Model of `CommonClient._request`: issue the request once (`request_func(url)`), and
if `validate` is set run `raise_for_status_with_logging` on the response;
otherwise return the raw response.  `endpoint i` is the response that the
session would give to the i-th request sent; the source sends exactly one. -/
def _request (jsonStr : α → Option String) (text : α → String)
    (validate : Bool) (endpoint : Nat → Response α) : RequestTrace α :=
  let r := endpoint 0
  { requests := 1
    result :=
      if validate then
        match raise_for_status_with_logging jsonStr text r with
        | some e => .error e
        | none => .ok r
      else .ok r }

/-! ## URL joining (`common/helpers.py`, `make_url`)

Python strings are embedded as `List Char`. -/

/-- Python `str.endswith('/')` for a one-character suffix. -/
def endswithSlash (s : List Char) : Bool := s.getLast? = some '/'

/-- Python `str.startswith('/')` for a one-character prefix. -/
def startswithSlash (s : List Char) : Bool := s.head? = some '/'

/-- Model of `make_url(base, extension)` from `common/helpers.py`: drop a trailing
`'/'` from `base`, prepend `'/'` to `extension` when absent, concatenate. -/
def make_url (base extension : List Char) : List Char :=
  let base := if endswithSlash base then base.dropLast else base
  let extension := if startswithSlash extension then extension else '/' :: extension
  base ++ extension

/-! ## The polling state machine (`CommonClient._poll_for_url`) -/

/-- Modelled from the spec: `SUCCEEDED_STATUSES` is imported by
`common/http_client_base.py` from `common/constants.py`, which is not among
the sources; the spec only says there is a "success set" of terminal JSON job
statuses (terminal state "Succeeded"). One representative element is used. -/
def SUCCEEDED_STATUSES : List String := ["DONE"]

/-- Modelled from the spec: `FAILED_STATUSES` is imported by
`common/http_client_base.py` from `common/constants.py`, which is not among
the sources; the spec only says there is a "failure set" of terminal JSON job
statuses (terminal state "Failed"). One representative element is used. -/
def FAILED_STATUSES : List String := ["FAILED"]

/-- Terminal outcome of `CommonClient._poll_for_url`: the returned response,
a raised `BDPFailedAsynchronousOperationException` carrying the response, a
raised HTTP error from `raise_for_status_with_logging` (carrying the response
and the error kind), or a raised `BDPPollingTimeoutException` whose message
reports the given number of elapsed seconds. -/
inductive PollOutcome (α : Type) where
  | success (r : Response α)
  | failedAsync (r : Response α)
  | httpError (r : Response α) (kind : ErrKind)
  | timeout (reportedSeconds : Nat)
  deriving Repr, DecidableEq

/-- The test `(wait_status is not None) and response.status_code == wait_status`
guarding the wait branch of the `_poll_for_url` loop. -/
def waitMatches (wait_status : Option Nat) (status_code : Nat) : Bool :=
  match wait_status with
  | some w => status_code == w
  | none => false

/-- The `for _ in range(self.polling_max_attempts)` loop of
`CommonClient._poll_for_url`, with the success/failure status sets and the
status extractor `get_status` as parameters.  `endpoint i` is the response to
the i-th GET of this poll (`self.get(path, validate=False)`); `attemptsLeft`
counts the remaining loop iterations, `i` the next request index, `requests`
and `sleeps` the numbers of GET requests issued and `time.sleep` calls made so
far.  Returns the outcome together with the total request and sleep counts. -/
def pollLoop (succeeded failed : List String) (get_status : α → String)
    (check_json_status : Bool) (success_status : Nat) (wait_status : Option Nat)
    (sleep_interval polling_max_attempts : Nat) (endpoint : Nat → Response α) :
    Nat → Nat → Nat → Nat → PollOutcome α × Nat × Nat
  | 0, _, requests, sleeps =>
      (.timeout (sleep_interval * polling_max_attempts), requests, sleeps)
  | attemptsLeft + 1, i, requests, sleeps =>
      let r := endpoint i
      if waitMatches wait_status r.status_code then
        pollLoop succeeded failed get_status check_json_status success_status
          wait_status sleep_interval polling_max_attempts endpoint
          attemptsLeft (i + 1) (requests + 1) (sleeps + 1)
      else if r.status_code = success_status then
        if check_json_status then
          let response_status := get_status r.body
          if response_status ∈ succeeded then (.success r, requests + 1, sleeps)
          else if response_status ∈ failed then (.failedAsync r, requests + 1, sleeps)
          else
            pollLoop succeeded failed get_status check_json_status success_status
              wait_status sleep_interval polling_max_attempts endpoint
              attemptsLeft (i + 1) (requests + 1) (sleeps + 1)
        else (.success r, requests + 1, sleeps)
      else
        match errorKindOf r.status_code with
        | some k => (.httpError r k, requests + 1, sleeps)
        | none =>
            pollLoop succeeded failed get_status check_json_status success_status
              wait_status sleep_interval polling_max_attempts endpoint
              attemptsLeft (i + 1) (requests + 1) sleeps

/-- The `if not sleep_interval: sleep_interval = self.polling_sleep` default
at the top of `_poll_for_url`: a `None` (and, Python falsiness being what it
is, also a `0`) `sleep_interval` argument is replaced by `polling_sleep`. -/
def effective_sleep_interval (polling_sleep : Nat) : Option Nat → Nat
  | none => polling_sleep
  | some 0 => polling_sleep
  | some (n + 1) => n + 1

/-- Model of `CommonClient._poll_for_url` with the spec-modelled status sets. -/
def _poll_for_url (polling_sleep polling_max_attempts : Nat)
    (get_status : α → String) (check_json_status : Bool) (success_status : Nat)
    (wait_status : Option Nat) (sleep_interval : Option Nat)
    (endpoint : Nat → Response α) : PollOutcome α × Nat × Nat :=
  pollLoop SUCCEEDED_STATUSES FAILED_STATUSES get_status check_json_status
    success_status wait_status (effective_sleep_interval polling_sleep sleep_interval)
    polling_max_attempts endpoint polling_max_attempts 0 0 0

/-- A response on which one iteration of the `_poll_for_url` loop sleeps once
and proceeds to the next attempt: either its status code equals the wait
status, or it equals the success status while the extracted JSON status is in
neither the success nor the failure set (still in progress). -/
def continuesWithSleep (succeeded failed : List String) (get_status : α → String)
    (check_json_status : Bool) (success_status : Nat) (wait_status : Option Nat)
    (r : Response α) : Prop :=
  waitMatches wait_status r.status_code = true ∨
    (r.status_code = success_status ∧ check_json_status = true ∧
      get_status r.body ∉ succeeded ∧ get_status r.body ∉ failed)

/-! ## Batch dispatch (`common/helpers.py`, `dox_api_client.py`) -/

/-- Python exception values as they circulate through the batch layer:
`ValueError`, the typed client exceptions, or any other exception. -/
inductive Exn where
  | valueError
  | failedAsyncOperation
  | pollingTimeout
  | httpError (kind : ErrKind) (status_code : Nat)
  | other (message : String)
  deriving Repr, DecidableEq

/-- Model of `function_wrap_errors(function, *args)` from `common/helpers.py`:
`try: return function(*args) except Exception as e: return e`.  A raising
call is modelled as a function into `Except Exn`; the wrapper turns the
raised exception into a returned value, which `Except` already represents. -/
def function_wrap_errors (function : α → Except Exn β) (x : α) : Except Exn β :=
  function x

/-- A Python argument that is checked with `isinstance(arg, list)`: either an
actual list or some non-list value. -/
inductive PyListArg (α : Type) where
  | list (xs : List α)
  | notList
  deriving Repr

/-- Model of `DoxApiClient._single_upload_wrap_errors`: the per-item upload operation
with exceptions captured as values.  `upload (path, mime)` models
`self._single_upload(document_path, options, mime_type)` for the fixed
`options` of the call. -/
def _single_upload_wrap_errors (upload : String × String → Except Exn J)
    (document_path : String) (mime_type : String) : Except Exn J :=
  function_wrap_errors upload (document_path, mime_type)

/-- Model of `DoxApiClient._get_extraction_for_document_wrap_errors`: when the incoming
`document_id` is already an exception (a captured upload failure) it is
returned unchanged; otherwise `get_extraction_for_document` is run with
exceptions captured. -/
def _get_extraction_for_document_wrap_errors
    (get_extraction_for_document : String → Except Exn R)
    (document_id : Except Exn String) : Except Exn R :=
  match document_id with
  | .error e => .error e
  | .ok docId => function_wrap_errors get_extraction_for_document docId

/-- Observable effect of one `ThreadPoolExecutor` batch stage: the worker
count the pool was created with, and the ordered results of `pool.map`. -/
structure BatchRun (σ : Type) where
  workers : Nat
  results : List σ
  deriving Repr

/-- Model of `DoxApiClient.get_extraction_for_documents`: reject a non-list or empty
`document_ids` with `ValueError`, then map
`_get_extraction_for_document_wrap_errors` over the ids on a pool of
`min(polling_threads, len(document_ids))` workers.  `pool.map` preserves
input order, so it is modelled as `List.map`. -/
def get_extraction_for_documents (get_extraction_for_document : String → Except Exn R)
    (polling_threads : Nat) (document_ids : PyListArg (Except Exn String)) :
    Except Exn (BatchRun (Except Exn R)) :=
  match document_ids with
  | .notList => .error .valueError
  | .list ids =>
      if ids.length = 0 then .error .valueError
      else .ok
        { workers := min polling_threads ids.length
          results := ids.map
            (_get_extraction_for_document_wrap_errors get_extraction_for_document) }

/-- Observable effect of `extract_information_from_documents_with_options`:
the two pools' worker counts, the upload-stage results, and the final results
wrapped into the returned `ResultIterator`. -/
structure ExtractTrace (J R : Type) where
  uploadWorkers : Nat
  uploadResults : List (Except Exn J)
  pollWorkers : Nat
  results : List (Except Exn R)
  deriving Repr

/-- Model of `DoxApiClient.extract_information_from_documents_with_options`:
reject a non-list or empty `document_paths` with `ValueError`; build the
mime-type list (`[mime_type] * n` when absent, else it must be a list of the
same length); upload all documents on a pool of `min(polling_threads, n)`
workers with errors captured; replace each successful upload result by its
`id` field (`result[API_FIELD_ID]`), keeping exceptions as they are; and hand
the ids to `get_extraction_for_documents`.  `idOf` models the
`API_FIELD_ID` lookup on the upload response JSON `J`. -/
def extract_information_from_documents_with_options
    (upload : String × String → Except Exn J) (idOf : J → String)
    (get_extraction_for_document : String → Except Exn R)
    (polling_threads : Nat) (document_paths : PyListArg String)
    (mime_type : String) (mime_type_list : Option (PyListArg String)) :
    Except Exn (ExtractTrace J R) :=
  match document_paths with
  | .notList => .error .valueError
  | .list paths =>
      if paths.length = 0 then .error .valueError
      else do
        let number_of_documents := paths.length
        let mimes ← match mime_type_list with
          | none => pure (List.replicate number_of_documents mime_type)
          | some .notList => .error .valueError
          | some (.list l) =>
              if l.length ≠ number_of_documents then .error .valueError else pure l
        let upload_results := (paths.zip mimes).map
          (fun pm => _single_upload_wrap_errors upload pm.1 pm.2)
        let upload_ids := upload_results.map (fun r => r.map idOf)
        let second ← get_extraction_for_documents get_extraction_for_document
          polling_threads (.list upload_ids)
        pure
          { uploadWorkers := min polling_threads number_of_documents
            uploadResults := upload_results
            pollWorkers := second.workers
            results := second.results }

/-- The end-to-end fate of one document path inside
`extract_information_from_documents_with_options`: upload it (errors
captured), and if the upload succeeded, poll the extraction for the uploaded
document's `id` (errors captured); an upload error is carried through the
second stage unchanged. -/
def extraction_pipeline (upload : String × String → Except Exn J)
    (idOf : J → String) (get_extraction_for_document : String → Except Exn R)
    (mime : String) (p : String) : Except Exn R :=
  match function_wrap_errors upload (p, mime) with
  | .error e => .error e
  | .ok j => function_wrap_errors get_extraction_for_document (idOf j)

/-! ## `ResultIterator` (`common/http_client_base.py`) -/

/-- What one `ResultIterator.__next__()` call does: raise `StopIteration`
(the base iterator is exhausted), raise a captured exception, or return a
success payload. -/
inductive NextOutcome (β : Type) where
  | stop
  | raised (e : Exn)
  | yielded (v : β)
  deriving Repr, DecidableEq

/-- The outcome `ResultIterator.__next__` produces for one base-iterator
element: `raise result` when it is an exception, `return result` otherwise. -/
def nextOutcomeOf (item : Except Exn β) : NextOutcome β :=
  match item with
  | .error e => .raised e
  | .ok v => .yielded v

/-- Model of `ResultIterator.__next__` over the remaining elements of the finite base
iterator: take `next(self.base)` (or raise `StopIteration` when exhausted),
raise it if it is an exception, return it otherwise.  Returns the outcome and
the remaining elements. -/
def resultIteratorNext (base : List (Except Exn β)) :
    NextOutcome β × List (Except Exn β) :=
  match base with
  | [] => (.stop, [])
  | item :: rest => (nextOutcomeOf item, rest)

/-- Exhaustively draining a `ResultIterator`: the sequence of `__next__`
outcomes until the base iterator is exhausted. -/
def resultIteratorDrain : List (Except Exn β) → List (NextOutcome β)
  | [] => []
  | item :: rest => nextOutcomeOf item :: resultIteratorDrain rest

/-! ## Helper lemmas about the polling loop -/

/-- One loop iteration on a response that keeps the poller polling with a
sleep: one more request, one more sleep, next attempt. -/
theorem pollLoop_continue (succ fail : List String) (gs : α → String)
    (cj : Bool) (ss : Nat) (ws : Option Nat) (si pm : Nat)
    (ep : Nat → Response α) (n i req sl : Nat)
    (h : continuesWithSleep succ fail gs cj ss ws (ep i)) :
    pollLoop succ fail gs cj ss ws si pm ep (n + 1) i req sl
      = pollLoop succ fail gs cj ss ws si pm ep n (i + 1) (req + 1) (sl + 1) := by
  by_cases hw : waitMatches ws (ep i).status_code = true
  · simp [pollLoop, hw]
  · rcases h with h | ⟨hsc, hcj, hns, hnf⟩
    · exact absurd h hw
    · simp [pollLoop, hw, hsc, hcj, hns, hnf]

/-- Running the loop across a prefix of `k` responses that all keep the
poller polling with a sleep adds `k` to the request and sleep counters and
consumes `k` attempts. -/
theorem pollLoop_advance (succ fail : List String) (gs : α → String)
    (cj : Bool) (ss : Nat) (ws : Option Nat) (si pm : Nat)
    (ep : Nat → Response α) (k : Nat) :
    ∀ n i req sl,
      (∀ j, j < k → continuesWithSleep succ fail gs cj ss ws (ep (i + j))) →
      pollLoop succ fail gs cj ss ws si pm ep (k + n) i req sl
        = pollLoop succ fail gs cj ss ws si pm ep n (i + k) (req + k) (sl + k) := by
  induction k with
  | zero => intro n i req sl _; simp
  | succ k ih =>
      intro n i req sl h
      have h0 : continuesWithSleep succ fail gs cj ss ws (ep i) := by
        simpa using h 0 (Nat.succ_pos k)
      have hstep := pollLoop_continue succ fail gs cj ss ws si pm ep (k + n) i req sl h0
      have hrest := ih n (i + 1) (req + 1) (sl + 1)
        (fun j hj => by
          have := h (j + 1) (by omega)
          simpa [Nat.add_assoc, Nat.add_comm 1 j] using this)
      calc pollLoop succ fail gs cj ss ws si pm ep (k + 1 + n) i req sl
          = pollLoop succ fail gs cj ss ws si pm ep (k + n + 1) i req sl := by
            ring_nf
        _ = pollLoop succ fail gs cj ss ws si pm ep (k + n) (i + 1) (req + 1) (sl + 1) :=
            hstep
        _ = pollLoop succ fail gs cj ss ws si pm ep n (i + 1 + k) (req + 1 + k) (sl + 1 + k) :=
            hrest
        _ = pollLoop succ fail gs cj ss ws si pm ep n (i + (k + 1)) (req + (k + 1)) (sl + (k + 1)) := by
            ring_nf

/-- When the wait status differs from the status code at hand, the wait
branch is not taken. -/
theorem waitMatches_ne (ws : Option Nat) (c : Nat) (h : ws ≠ some c) :
    waitMatches ws c = false := by
  cases ws with
  | none => rfl
  | some w =>
      simp only [waitMatches, beq_eq_false_iff_ne, ne_eq]
      intro hc
      exact h (by rw [hc])

/-! ## Claim theorems: the polling state machine -/

/-- C1: with `wait_status` set, every response whose status code equals the
wait status costs one sleep and one further attempt, and the first response
with the success status code and a succeeded JSON status is returned.  After
`k` wait-status responses the poller returns the `(k+1)`-st response, having
issued `k + 1` GET requests and slept `k` times. -/
theorem poll_wait_then_first_success
    (polling_sleep pm ss w k : Nat) (si : Option Nat)
    (gs : α → String) (ep : Nat → Response α)
    (hwne : w ≠ ss)
    (hpre : ∀ j, j < k → (ep j).status_code = w)
    (hsc : (ep k).status_code = ss)
    (hst : gs (ep k).body ∈ SUCCEEDED_STATUSES)
    (hk : k < pm) :
    _poll_for_url polling_sleep pm gs true ss (some w) si ep
      = (.success (ep k), k + 1, k) := by
  obtain ⟨m, hm⟩ : ∃ m, pm = k + (m + 1) := ⟨pm - k - 1, by omega⟩
  unfold _poll_for_url
  rw [hm]
  have hpre' : ∀ j, j < k →
      continuesWithSleep SUCCEEDED_STATUSES FAILED_STATUSES gs true ss (some w) (ep (0 + j)) := by
    intro j hj
    left
    simp [waitMatches, Nat.zero_add, hpre j hj]
  rw [pollLoop_advance _ _ _ _ _ _ _ _ _ k (m + 1) 0 0 0 hpre']
  have hwm : waitMatches (some w) ss = false := by
    apply waitMatches_ne
    intro hcontra
    exact hwne (Option.some.inj hcontra)
  simp [pollLoop, Nat.zero_add, hsc, hwm, hst]

/-- C1 witness: 409 for the first three polls, then 200 with a succeeded JSON
status: the fourth response is returned after 4 requests and 3 sleeps. -/
theorem poll_wait_then_first_success_witness :
    _poll_for_url 5 120 (fun s => s) true 200 (some 409) none
        (fun i => if i < 3 then ⟨409, "PENDING"⟩ else ⟨200, "DONE"⟩)
      = (.success ⟨200, "DONE"⟩, 4, 3) := by
  have h := poll_wait_then_first_success 5 120 200 409 3 none (fun s => s)
    (fun i => if i < 3 then ⟨409, "PENDING"⟩ else ⟨200, "DONE"⟩)
    (by decide) (by decide) (by decide) (by decide) (by decide)
  simpa using h

/-- C2: with `check_json_status` true, the first response with the success
status code and a JSON status in the failed set makes the poller raise
`BDPFailedAsynchronousOperationException` carrying that response, having
issued exactly `k + 1` requests — no further request follows. -/
theorem poll_failed_status_raises
    (polling_sleep pm ss k : Nat) (ws si : Option Nat)
    (gs : α → String) (ep : Nat → Response α)
    (hw : ws ≠ some ss)
    (hpre : ∀ j, j < k →
      continuesWithSleep SUCCEEDED_STATUSES FAILED_STATUSES gs true ss ws (ep j))
    (hsc : (ep k).status_code = ss)
    (hst : gs (ep k).body ∈ FAILED_STATUSES)
    (hk : k < pm) :
    _poll_for_url polling_sleep pm gs true ss ws si ep
      = (.failedAsync (ep k), k + 1, k) := by
  obtain ⟨m, hm⟩ : ∃ m, pm = k + (m + 1) := ⟨pm - k - 1, by omega⟩
  unfold _poll_for_url
  rw [hm]
  have hpre' : ∀ j, j < k →
      continuesWithSleep SUCCEEDED_STATUSES FAILED_STATUSES gs true ss ws (ep (0 + j)) := by
    intro j hj
    simpa [Nat.zero_add] using hpre j hj
  rw [pollLoop_advance _ _ _ _ _ _ _ _ _ k (m + 1) 0 0 0 hpre']
  have hwm : waitMatches ws ss = false := waitMatches_ne ws ss hw
  have hfail : gs (ep k).body = "FAILED" := by
    simpa [FAILED_STATUSES] using hst
  have hnsucc : gs (ep k).body ∉ SUCCEEDED_STATUSES := by
    simp [SUCCEEDED_STATUSES, hfail]
  simp [pollLoop, Nat.zero_add, hsc, hwm, hst, hnsucc]

/-- C2 witness: a first response of 200 with a failed JSON status raises at
once, after a single request and no sleep. -/
theorem poll_failed_status_raises_witness :
    _poll_for_url 5 120 (fun s => s) true 200 none none
        (fun _ => ⟨200, "FAILED"⟩)
      = (.failedAsync ⟨200, "FAILED"⟩, 1, 0) := by
  have h := poll_failed_status_raises 5 120 200 0 none none (fun s => s)
    (fun _ => ⟨200, "FAILED"⟩)
    (by decide) (by intro j hj; omega) (by decide) (by decide) (by decide)
  simpa using h

/-- C3: when every one of the `polling_max_attempts` responses keeps the
poller polling (wait status code, or success code with an in-progress JSON
status), the poller issues exactly `polling_max_attempts` requests and raises
`BDPPollingTimeoutException` reporting
`sleep_interval * polling_max_attempts` elapsed seconds. -/
theorem poll_timeout_reports_elapsed
    (polling_sleep pm ss : Nat) (ws si : Option Nat)
    (gs : α → String) (ep : Nat → Response α)
    (hpre : ∀ j, j < pm →
      continuesWithSleep SUCCEEDED_STATUSES FAILED_STATUSES gs true ss ws (ep j)) :
    _poll_for_url polling_sleep pm gs true ss ws si ep
      = (.timeout (effective_sleep_interval polling_sleep si * pm), pm, pm) := by
  unfold _poll_for_url
  have hpre' : ∀ j, j < pm →
      continuesWithSleep SUCCEEDED_STATUSES FAILED_STATUSES gs true ss ws (ep (0 + j)) := by
    intro j hj
    simpa [Nat.zero_add] using hpre j hj
  have h := pollLoop_advance SUCCEEDED_STATUSES FAILED_STATUSES gs true ss ws
    (effective_sleep_interval polling_sleep si) pm ep pm 0 0 0 0 hpre'
  simpa [pollLoop, Nat.add_zero, Nat.zero_add] using h

/-- C3 witness: four perpetually in-progress responses with
`polling_max_attempts = 4` and the default sleep interval of 5 time out after
4 requests reporting 20 seconds. -/
theorem poll_timeout_reports_elapsed_witness :
    _poll_for_url 5 4 (fun s => s) true 200 none none
        (fun _ => ⟨200, "IN_PROGRESS"⟩)
      = (.timeout 20, 4, 4) := by
  have h := poll_timeout_reports_elapsed 5 4 200 none none (fun s => s)
    (fun _ => ⟨200, "IN_PROGRESS"⟩)
    (fun _ _ => Or.inr ⟨rfl, rfl,
      (by decide : ("IN_PROGRESS" : String) ∉ SUCCEEDED_STATUSES),
      (by decide : ("IN_PROGRESS" : String) ∉ FAILED_STATUSES)⟩)
  simpa using h

/-! ## Claim theorems: status validation and the 401 behaviour -/

/-- C7: `raise_for_status_with_logging` raises the unauthorized error for
401, the client error for any other 4xx, the server error for 5xx — each
carrying the response and its status code — and nothing otherwise, the raw
response flowing back through `_request`; with `validate` false no status
check happens at all, whatever the status. -/
theorem raise_for_status_classification
    (jsonStr : α → Option String) (text : α → String) (r : Response α) :
    (r.status_code = 401 →
      raise_for_status_with_logging jsonStr text r
        = some (.unauthorized "Missing authorization for this service" r 401)) ∧
    (400 ≤ r.status_code → r.status_code < 500 → r.status_code ≠ 401 →
      raise_for_status_with_logging jsonStr text r
        = some (.client ((jsonStr r.body).getD (text r.body)) r r.status_code)) ∧
    (500 ≤ r.status_code → r.status_code < 600 →
      raise_for_status_with_logging jsonStr text r
        = some (.server (text r.body) r r.status_code)) ∧
    (r.status_code < 400 ∨ 600 ≤ r.status_code →
      raise_for_status_with_logging jsonStr text r = none) ∧
    (∀ ep : Nat → Response α,
      _request jsonStr text false ep = ⟨1, .ok (ep 0)⟩) ∧
    (∀ ep : Nat → Response α,
      raise_for_status_with_logging jsonStr text (ep 0) = none →
      _request jsonStr text true ep = ⟨1, .ok (ep 0)⟩) := by
  refine ⟨?_, ?_, ?_, ?_, ?_, ?_⟩
  · intro h
    simp [raise_for_status_with_logging, errorKindOf, h]
  · intro h1 h2 h3
    simp [raise_for_status_with_logging, errorKindOf, h1, h2, h3]
  · intro h1 h2
    have h3 : r.status_code ≠ 401 := by omega
    have h4 : ¬ r.status_code < 500 := by omega
    simp [raise_for_status_with_logging, errorKindOf, h1, h2, h3, h4]
  · intro h
    rcases h with h | h
    · have h1 : r.status_code ≠ 401 := by omega
      have h2 : ¬ 400 ≤ r.status_code := by omega
      have h3 : ¬ 500 ≤ r.status_code := by omega
      simp [raise_for_status_with_logging, errorKindOf, h1, h2, h3]
    · have h1 : r.status_code ≠ 401 := by omega
      have h2 : ¬ r.status_code < 500 := by omega
      have h3 : ¬ r.status_code < 600 := by omega
      simp [raise_for_status_with_logging, errorKindOf, h1, h2, h3]
  · intro ep
    rfl
  · intro ep h
    simp [_request, h]

/-- C7 witness: a 503 response is mapped to the server error carrying the
response and status code, and a 201 response passes validation untouched. -/
theorem raise_for_status_classification_witness :
    raise_for_status_with_logging (fun _ => none) (fun b => b)
        (⟨503, "oops"⟩ : Response String)
      = some (.server "oops" ⟨503, "oops"⟩ 503) ∧
    _request (fun _ => none) (fun b => b) true (fun _ => (⟨201, "made"⟩ : Response String))
      = ⟨1, .ok ⟨201, "made"⟩⟩ := by
  have h := raise_for_status_classification (fun _ => (none : Option String))
    (fun b => b) (⟨503, "oops"⟩ : Response String)
  refine ⟨h.2.2.1 (by decide) (by decide), ?_⟩
  have h2 := raise_for_status_classification (fun _ => (none : Option String))
    (fun b => b) (⟨201, "made"⟩ : Response String)
  exact h2.2.2.2.2.2 (fun _ => ⟨201, "made"⟩) (by decide)

/-- C6 counterexample: against an endpoint whose first response is 401 and
whose second would be 200, a validated request does not issue a second
(retried) request — the source's `_request` sends exactly one request and has
no token-refresh-and-retry path, so the claimed retry count of 2 is false. -/
theorem request_401_refresh_retry_counterexample :
    ¬ ((_request (fun _ => none) (fun b => b) true
          (fun i => if i = 0 then (⟨401, "expired"⟩ : Response String) else ⟨200, "ok"⟩)).requests
        = 2) := by
  decide

/-- C6 amended: a validated request whose response is 401 raises
`BDPUnauthorizedException` immediately, after exactly one request, with no
token refresh and no retry (the only token-fetch retry in the source is the
two-attempt loop at session creation in `_get_oauth_session`). -/
theorem request_401_raises_unauthorized_without_retry
    (jsonStr : α → Option String) (text : α → String) (ep : Nat → Response α)
    (h : (ep 0).status_code = 401) :
    _request jsonStr text true ep
      = ⟨1, .error (.unauthorized "Missing authorization for this service" (ep 0) 401)⟩ := by
  simp [_request, raise_for_status_with_logging, errorKindOf, h]

/-- C6 amended witness: the 401-then-200 endpoint yields the unauthorized
error after a single request. -/
theorem request_401_raises_unauthorized_without_retry_witness :
    _request (fun _ => none) (fun b => b) true
        (fun i => if i = 0 then (⟨401, "expired"⟩ : Response String) else ⟨200, "ok"⟩)
      = ⟨1, .error (.unauthorized "Missing authorization for this service"
            ⟨401, "expired"⟩ 401)⟩ := by
  have h := request_401_raises_unauthorized_without_retry (fun _ => (none : Option String))
    (fun b => b)
    (fun i => if i = 0 then (⟨401, "expired"⟩ : Response String) else ⟨200, "ok"⟩)
    (by decide)
  simpa using h

/-! ## Claim theorems: URL joining -/

/-- C8: `make_url` joins base and path with exactly one slash at the join
point whichever of the four trailing/leading-slash combinations the inputs
are in, and the two example joins from the spec come out as
`https://x.com/api/jobs`. -/
theorem make_url_normalizes_join (b e : List Char)
    (hb : endswithSlash b = false) (he : startswithSlash e = false) :
    make_url b e = b ++ '/' :: e ∧
    make_url (b ++ ['/']) e = b ++ '/' :: e ∧
    make_url b ('/' :: e) = b ++ '/' :: e ∧
    make_url (b ++ ['/']) ('/' :: e) = b ++ '/' :: e ∧
    make_url "https://x.com/api/".toList "/jobs".toList = "https://x.com/api/jobs".toList ∧
    make_url "https://x.com/api".toList "jobs".toList = "https://x.com/api/jobs".toList := by
  have hb' : endswithSlash (b ++ ['/']) = true := by
    simp [endswithSlash]
  have hd : (b ++ ['/']).dropLast = b := by
    simp
  refine ⟨?_, ?_, ?_, ?_, by decide, by decide⟩
  · simp [make_url, hb, he]
  · simp [make_url, hb', hd, he]
  · simp [make_url, hb, startswithSlash]
  · simp [make_url, hb', hd, startswithSlash]

/-- C8 witness: joining `"x/"` with `"/y"` and `"x"` with `"y"` both give
`"x/y"`. -/
theorem make_url_normalizes_join_witness :
    make_url "x/".toList "/y".toList = "x/y".toList ∧
    make_url "x".toList "y".toList = "x/y".toList := by
  have h := make_url_normalizes_join "x".toList "y".toList (by decide) (by decide)
  exact ⟨h.2.2.2.1, h.1⟩

/-! ## Claim theorems: ResultIterator -/

/-- Draining a `ResultIterator` produces exactly the per-element outcomes of
the base sequence, in order. -/
theorem resultIteratorDrain_eq_map (l : List (Except Exn β)) :
    resultIteratorDrain l = l.map nextOutcomeOf := by
  induction l with
  | nil => rfl
  | cons item rest ih => simp [resultIteratorDrain, ih]

/-- C5: each `ResultIterator.__next__` call consumes exactly one underlying
element, returning it when it is a success payload and raising it when it is
a captured exception; raising and yielding are distinct outcomes (an error
sentinel is never returned silently), and a full drain touches each element
exactly once, in order. -/
theorem result_iterator_single_pass (β : Type)
    (l : List (Except Exn β)) (e : Exn) (v : β) (rest : List (Except Exn β)) :
    (resultIteratorNext l).2 = l.tail ∧
    resultIteratorNext (.error e :: rest) = (.raised e, rest) ∧
    resultIteratorNext (.ok v :: rest) = (.yielded v, rest) ∧
    resultIteratorNext ([] : List (Except Exn β)) = (.stop, []) ∧
    (NextOutcome.raised e ≠ (NextOutcome.yielded v : NextOutcome β)) ∧
    resultIteratorDrain l = l.map nextOutcomeOf ∧
    (resultIteratorDrain l).length = l.length := by
  refine ⟨?_, rfl, rfl, rfl, by simp, resultIteratorDrain_eq_map l, ?_⟩
  · cases l <;> simp [resultIteratorNext]
  · simp [resultIteratorDrain_eq_map l]

/-! ## Helper lemmas about the batch stages -/

/-- Zipping a list with the matching-length constant mime list and mapping is
mapping with the constant supplied. -/
theorem zip_replicate_map (f : String × String → γ) (m : String) :
    ∀ paths : List String,
      (paths.zip (List.replicate paths.length m)).map f
        = paths.map fun p => f (p, m)
  | [] => rfl
  | p :: ps => by
      simp [List.replicate_succ, zip_replicate_map f m ps]

/-- What `get_extraction_for_documents` does on a non-empty id list: a pool
of `min(polling_threads, len(ids))` workers mapping the polling wrapper over
the ids in order. -/
theorem get_extraction_run_eq (get_extraction_for_document : String → Except Exn R)
    (threads : Nat) (ids : List (Except Exn String)) (h : ids ≠ []) :
    get_extraction_for_documents get_extraction_for_document threads (.list ids)
      = .ok { workers := min threads ids.length
              results := ids.map
                (_get_extraction_for_document_wrap_errors get_extraction_for_document) } := by
  have hlen : ids.length ≠ 0 := fun hh => h (List.length_eq_zero.mp hh)
  simp [get_extraction_for_documents, hlen]

/-- The polling wrapper applied to an id produced by the upload stage is the
end-to-end pipeline of that document path. -/
theorem wrap_map_id_eq_pipeline (upload : String × String → Except Exn J)
    (idOf : J → String) (get_extraction_for_document : String → Except Exn R)
    (mime : String) (p : String) :
    _get_extraction_for_document_wrap_errors get_extraction_for_document
        ((function_wrap_errors upload (p, mime)).map idOf)
      = extraction_pipeline upload idOf get_extraction_for_document mime p := by
  cases h : upload (p, mime) <;>
    simp [function_wrap_errors, _get_extraction_for_document_wrap_errors,
      extraction_pipeline, Except.map, h]

/-- What `extract_information_from_documents_with_options` does on a
non-empty path list with the default mime handling: an upload pool and a
polling pool of `min(polling_threads, len(paths))` workers each, the upload
results in input order, and one final slot per path given by the end-to-end
pipeline. -/
theorem extract_run_eq (upload : String × String → Except Exn J)
    (idOf : J → String) (get_extraction_for_document : String → Except Exn R)
    (threads : Nat) (paths : List String) (mime : String) (h : paths ≠ []) :
    extract_information_from_documents_with_options upload idOf
        get_extraction_for_document threads (.list paths) mime none
      = .ok { uploadWorkers := min threads paths.length
              uploadResults := paths.map fun p => function_wrap_errors upload (p, mime)
              pollWorkers := min threads paths.length
              results := paths.map
                (extraction_pipeline upload idOf get_extraction_for_document mime) } := by
  have hlen : paths.length ≠ 0 := fun hh => h (List.length_eq_zero.mp hh)
  have hids : (paths.map fun p =>
      (function_wrap_errors upload (p, mime)).map idOf) ≠ [] := by
    simpa [List.map_eq_nil_iff] using h
  simp only [extract_information_from_documents_with_options, hlen, if_false]
  simp only [bind, Except.bind, pure, Except.pure]
  rw [zip_replicate_map (fun pm => _single_upload_wrap_errors upload pm.1 pm.2) mime paths]
  simp only [_single_upload_wrap_errors]
  rw [List.map_map]
  have hcomp : ((fun r => Except.map idOf r) ∘ fun p => function_wrap_errors upload (p, mime))
      = fun p => (function_wrap_errors upload (p, mime)).map idOf := rfl
  rw [hcomp, get_extraction_run_eq _ threads _ hids]
  simp only [Except.bind]
  rw [List.map_map]
  have hcomp2 : (_get_extraction_for_document_wrap_errors get_extraction_for_document ∘
      fun p => (function_wrap_errors upload (p, mime)).map idOf)
      = extraction_pipeline upload idOf get_extraction_for_document mime := by
    funext p
    exact wrap_map_id_eq_pipeline upload idOf get_extraction_for_document mime p
  rw [hcomp2]
  simp [List.length_map]

/-! ## Claim theorems: batch dispatch -/

/-- C4: a batch of `N ≥ 1` document paths produces exactly `N` result slots,
slot `i` being the end-to-end pipeline outcome of input path `i`; an
exception raised for item `i` becomes the value of slot `i` (the `.error`
side of the slot) instead of propagating, and all other slots are the
pipeline outcomes of their own paths. -/
theorem extract_batch_preserves_slots (upload : String × String → Except Exn J)
    (idOf : J → String) (getx : String → Except Exn R) (threads : Nat)
    (paths : List String) (mime : String) (hne : paths ≠ []) :
    extract_information_from_documents_with_options upload idOf getx threads
        (.list paths) mime none
      = .ok { uploadWorkers := min threads paths.length
              uploadResults := paths.map fun p => function_wrap_errors upload (p, mime)
              pollWorkers := min threads paths.length
              results := paths.map (extraction_pipeline upload idOf getx mime) } ∧
    (paths.map (extraction_pipeline upload idOf getx mime)).length = paths.length ∧
    ∀ i (hi : i < paths.length)
      (hi2 : i < (paths.map (extraction_pipeline upload idOf getx mime)).length),
      (paths.map (extraction_pipeline upload idOf getx mime)).get ⟨i, hi2⟩
        = extraction_pipeline upload idOf getx mime (paths.get ⟨i, hi⟩) := by
  refine ⟨extract_run_eq upload idOf getx threads paths mime hne, by simp, ?_⟩
  intro i hi hi2
  simp [List.get_eq_getElem, List.getElem_map]

/-- C4 witness: for paths `["a", "b"]` where uploading `"a"` raises, the
batch returns two slots: the captured error at slot 0 and the extraction for
`"b"` at slot 1. -/
theorem extract_batch_preserves_slots_witness :
    extract_information_from_documents_with_options
        (fun pm => if pm.1 = "a" then Except.error (Exn.other "boom") else Except.ok pm.1)
        (fun j => j) (fun s => Except.ok (s ++ "!")) 15 (.list ["a", "b"]) "pdf" none
      = .ok { uploadWorkers := 2
              uploadResults := [Except.error (Exn.other "boom"), Except.ok "b"]
              pollWorkers := 2
              results := [Except.error (Exn.other "boom"), Except.ok "b!"] } := by
  have h := (extract_batch_preserves_slots
    (fun pm => if pm.1 = "a" then Except.error (Exn.other "boom") else Except.ok pm.1)
    (fun j => j) (fun s => Except.ok (s ++ "!")) 15 ["a", "b"] "pdf"
    (by decide)).1
  simpa [extraction_pipeline, function_wrap_errors] using h

/-- C9: both batch entry points reject a non-list or empty input with
`ValueError` — the error result carries no `BatchRun`, so no pool exists and
no request was issued — and on a non-empty list of `N` items every pool is
created with `min(polling_threads, N)` workers. -/
theorem batch_empty_rejected_pool_sized (upload : String × String → Except Exn J)
    (idOf : J → String) (getx : String → Except Exn R) (threads : Nat)
    (mime : String) (mtl : Option (PyListArg String)) :
    extract_information_from_documents_with_options upload idOf getx threads
        .notList mime mtl = .error .valueError ∧
    extract_information_from_documents_with_options upload idOf getx threads
        (.list []) mime mtl = .error .valueError ∧
    get_extraction_for_documents getx threads .notList = .error .valueError ∧
    get_extraction_for_documents getx threads (.list []) = .error .valueError ∧
    (∀ paths : List String, paths ≠ [] →
      ∀ tr, extract_information_from_documents_with_options upload idOf getx threads
          (.list paths) mime none = .ok tr →
        tr.uploadWorkers = min threads paths.length ∧
        tr.pollWorkers = min threads paths.length) ∧
    (∀ ids : List (Except Exn String), ids ≠ [] →
      ∀ br, get_extraction_for_documents getx threads (.list ids) = .ok br →
        br.workers = min threads ids.length) := by
  refine ⟨rfl, ?_, rfl, ?_, ?_, ?_⟩
  · simp [extract_information_from_documents_with_options]
  · simp [get_extraction_for_documents]
  · intro paths hne tr htr
    rw [extract_run_eq upload idOf getx threads paths mime hne] at htr
    cases htr
    exact ⟨rfl, rfl⟩
  · intro ids hne br hbr
    rw [get_extraction_run_eq getx threads ids hne] at hbr
    cases hbr
    rfl

/-- C9 witness: the empty id list is rejected with `ValueError`, and a
two-id list gets a pool of `min 15 2 = 2` workers. -/
theorem batch_empty_rejected_pool_sized_witness :
    get_extraction_for_documents (fun s => Except.ok s) 15
        (.list ([] : List (Except Exn String))) = .error .valueError ∧
    (BatchRun.mk 2 [Except.ok "a", Except.ok "b"]
        : BatchRun (Except Exn String)).workers = min 15 2 := by
  have h := batch_empty_rejected_pool_sized (J := String)
    (fun pm => Except.ok pm.1) (fun j => j) (fun s => Except.ok s) 15 "pdf" none
  refine ⟨h.2.2.2.1, ?_⟩
  exact h.2.2.2.2.2 [Except.ok "a", Except.ok "b"] (by simp)
    ⟨2, [Except.ok "a", Except.ok "b"]⟩ rfl

/-- C10: a slot whose value entering the polling stage is already a captured
upload exception is returned unchanged by
`_get_extraction_for_document_wrap_errors` — the result does not depend on
the polling operation at all, so no GET is issued for it — and the original
upload error surfaces at the same slot of the final results. -/
theorem failed_upload_not_polled (getx getx2 : String → Except Exn R) (e : Exn)
    (upload : String × String → Except Exn J) (idOf : J → String)
    (threads : Nat) (paths : List String) (mime : String)
    (hne : paths ≠ []) (i : Nat) (hi : i < paths.length)
    (hup : upload (paths.get ⟨i, hi⟩, mime) = .error e) :
    _get_extraction_for_document_wrap_errors getx (.error e) = .error e ∧
    _get_extraction_for_document_wrap_errors getx (.error e)
      = _get_extraction_for_document_wrap_errors getx2 (.error e) ∧
    ∀ tr, extract_information_from_documents_with_options upload idOf getx threads
        (.list paths) mime none = .ok tr →
      ∀ hi2 : i < tr.results.length, tr.results.get ⟨i, hi2⟩ = .error e := by
  refine ⟨rfl, rfl, ?_⟩
  intro tr htr hi2
  rw [extract_run_eq upload idOf getx threads paths mime hne] at htr
  cases htr
  have hpt : extraction_pipeline upload idOf getx mime (paths.get ⟨i, hi⟩)
      = .error e := by
    unfold extraction_pipeline function_wrap_errors
    rw [hup]
  have hget : (paths.map (extraction_pipeline upload idOf getx mime)).get ⟨i, hi2⟩
      = extraction_pipeline upload idOf getx mime (paths.get ⟨i, hi⟩) := by
    simp [List.get_eq_getElem, List.getElem_map]
  exact hget.trans hpt

/-- C10 witness: a captured upload error flows through the polling wrapper
unchanged, and surfaces at slot 0 of a one-document batch whose upload
fails. -/
theorem failed_upload_not_polled_witness :
    _get_extraction_for_document_wrap_errors (fun s => Except.ok (s ++ "!"))
        (Except.error (Exn.other "boom"))
      = (Except.error (Exn.other "boom") : Except Exn String) := by
  have h := failed_upload_not_polled (J := String)
    (fun s => Except.ok (s ++ "!")) (fun s => Except.ok s) (Exn.other "boom")
    (fun _ => Except.error (Exn.other "boom")) (fun j => j) 15 ["a"] "pdf"
    (by decide) 0 (by decide) rfl
  exact h.1

end BDP
